import Mathlib

/-!
Shallow embedding of the pixmo-docs data-generation repository, covering:
- `src/convert.py` (dataset → JSONL conversion with image extraction),
- the sandboxed code-execution wrappers of
  `src/pipeline/latex_diagram_pipeline/generate_diagram.py` and
  `src/pipeline/rdkit_chemical_pipeline/generate_chemical.py`,
- the `--num` parsing of `src/pipeline/all_pipelines.py`,
- `validate_config` of `src/main.py`,
- the `azure_create` retry wrapper of `src/pipeline/utils/azure_llm.py`.
Machine integers are modelled as `Nat`/`Int`; bytes as `List Nat` (each < 256);
fallible code returns `Except`/`Option`.
-/

/-! ## Base64 (model of Python `base64.b64encode` / `base64.b64decode`) -/

/-- The standard base64 alphabet, as index → character. -/
def b64CharOfIndex (n : Nat) : Char :=
  Char.ofNat
    (if n < 26 then 65 + n
     else if n < 52 then 71 + n
     else if n < 62 then n - 4
     else if n = 62 then 43
     else 47)

/-- Inverse lookup: base64 character → index (0 for characters outside the alphabet). -/
def b64IndexOfChar (c : Char) : Nat :=
  let k := c.toNat
  if 65 ≤ k ∧ k ≤ 90 then k - 65
  else if 97 ≤ k ∧ k ≤ 122 then k - 71
  else if 48 ≤ k ∧ k ≤ 57 then k + 4
  else if k = 43 then 62
  else if k = 47 then 63
  else 0

/-- Base64-encode a byte list, three bytes at a time, with `=` padding
(the algorithm of Python `base64.b64encode`). -/
def b64EncodeChunks : List Nat → List Char
  | a :: b :: c :: rest =>
    b64CharOfIndex (a / 4) ::
    b64CharOfIndex (a % 4 * 16 + b / 16) ::
    b64CharOfIndex (b % 16 * 4 + c / 64) ::
    b64CharOfIndex (c % 64) :: b64EncodeChunks rest
  | [a, b] =>
    [b64CharOfIndex (a / 4), b64CharOfIndex (a % 4 * 16 + b / 16),
     b64CharOfIndex (b % 16 * 4), '=']
  | [a] =>
    [b64CharOfIndex (a / 4), b64CharOfIndex (a % 4 * 16), '=', '=']
  | [] => []

/-- Base64-decode four characters at a time, honouring `=` padding
(the algorithm of Python `base64.b64decode` on well-formed input). -/
def b64DecodeChunks : List Char → List Nat
  | w :: x :: y :: z :: rest =>
    if y = '=' then
      [b64IndexOfChar w * 4 + b64IndexOfChar x / 16]
    else if z = '=' then
      [b64IndexOfChar w * 4 + b64IndexOfChar x / 16,
       b64IndexOfChar x % 16 * 16 + b64IndexOfChar y / 4]
    else
      (b64IndexOfChar w * 4 + b64IndexOfChar x / 16) ::
      (b64IndexOfChar x % 16 * 16 + b64IndexOfChar y / 4) ::
      (b64IndexOfChar y % 4 * 64 + b64IndexOfChar z) :: b64DecodeChunks rest
  | _ => []

/-- Model of `base64.b64encode(...).decode('utf-8')`: bytes to base64 text. -/
def b64encode (bs : List Nat) : String := String.mk (b64EncodeChunks bs)

/-- Model of `base64.b64decode`: base64 text back to bytes. -/
def b64decode (s : String) : List Nat := b64DecodeChunks s.toList

/-! ## UTF-8 (model of Python `bytes.decode('utf-8')`, strict mode) -/

/-- One-byte-at-a-time strict UTF-8 decoding state machine.
`pending` = continuation bytes still expected, `val` = code point accumulated so far,
`lo` = smallest code point the current sequence may legally encode (overlong check).
Rejects stray/missing continuation bytes, overlong encodings, surrogates and
code points above 0x10FFFF — the byte strings Python's strict decoder rejects. -/
def utf8DecodeLoop : List Nat → Nat → Nat → Nat → List Char → Option (List Char)
  | [], 0, _, _, acc => some acc.reverse
  | [], _ + 1, _, _, _ => Option.none
  | b :: rest, 0, _, _, acc =>
    if b < 128 then utf8DecodeLoop rest 0 0 0 (Char.ofNat b :: acc)
    else if b < 194 then Option.none
    else if b < 224 then utf8DecodeLoop rest 1 (b - 192) 128 acc
    else if b < 240 then utf8DecodeLoop rest 2 (b - 224) 2048 acc
    else if b < 245 then utf8DecodeLoop rest 3 (b - 240) 65536 acc
    else Option.none
  | b :: rest, 1, val, lo, acc =>
    if 128 ≤ b ∧ b < 192 then
      let val1 := val * 64 + (b - 128)
      if lo ≤ val1 ∧ val1 < 1114112 ∧ ¬(55296 ≤ val1 ∧ val1 < 57344) then
        utf8DecodeLoop rest 0 0 0 (Char.ofNat val1 :: acc)
      else Option.none
    else Option.none
  | b :: rest, p + 2, val, lo, acc =>
    if 128 ≤ b ∧ b < 192 then
      utf8DecodeLoop rest (p + 1) (val * 64 + (b - 128)) lo acc
    else Option.none

/-- Model of Python `bytes.decode('utf-8')`: `none` models `UnicodeDecodeError`. -/
def utf8Decode (bs : List Nat) : Option String :=
  (utf8DecodeLoop bs 0 0 0 []).map String.mk

/-! ## Python value model for `src/convert.py`

A `PyVal` is a JSON-serialisable-or-image Python value as seen by
`process_value`: `vImage` models a `PIL.Image.Image` object, represented by
the PNG byte string that `image.save(buffer, format='PNG')` would produce;
`vBytes` models a raw `bytes` value; `vDict` models a `dict` with string keys
in insertion order. (numpy values — the `hasattr(value, 'tolist')` branch —
and float NaN are outside this value universe.) -/

inductive PyVal where
  | vNone
  | vStr (s : String)
  | vInt (n : Int)
  | vBool (b : Bool)
  | vBytes (bs : List Nat)
  | vImage (png : List Nat)
  | vList (xs : List PyVal)
  | vDict (kvs : List (String × PyVal))

/-- First-match association-list lookup, the model of Python `dict.get`. -/
def pyLookup (kvs : List (String × PyVal)) (k : String) : Option PyVal :=
  match kvs with
  | [] => Option.none
  | (k1, v) :: rest => if k1 = k then some v else pyLookup rest k

/-- Python `d[k] = v` on an insertion-ordered dict. -/
def dictSet (kvs : List (String × PyVal)) (k : String) (v : PyVal) :
    List (String × PyVal) :=
  match kvs with
  | [] => [(k, v)]
  | (k1, v1) :: rest => if k1 = k then (k1, v) :: rest else (k1, v1) :: dictSet rest k v

/-- `is_datadreamer_image_format` (convert.py:74-81): a dict with a `"bytes"`
key holding a `bytes` value longer than 100 bytes. -/
def is_datadreamer_image_format (v : PyVal) : Bool :=
  match v with
  | .vDict kvs =>
    match pyLookup kvs "bytes" with
    | some (.vBytes bs) => 100 < bs.length
    | _ => false
  | _ => false

/-- The `value["bytes"]` payload of a DataDreamer image record. -/
def dictImageBytes (kvs : List (String × PyVal)) : List Nat :=
  match pyLookup kvs "bytes" with
  | some (.vBytes bs) => bs
  | _ => []

/-- `image_to_base64` (convert.py:28-40): PNG-serialise a PIL image and
base64-encode the bytes. In the model a PIL image is its PNG serialisation. -/
def image_to_base64 (png : List Nat) : String := b64encode png

/-- Python `f"{n:0{w}d}"` zero padding for naturals. -/
def natPad (n w : Nat) : String :=
  let s := toString n
  String.mk (List.replicate (w - s.length) '0') ++ s

/-- One image-file write event performed by `save_image_to_file`:
which row/column/counter it was for and the PNG content written. -/
structure ImgWrite where
  rowIdx : Nat
  colName : String
  counter : Nat
  png : List Nat
  deriving DecidableEq

/-- The file name `save_image_to_file` gives the written PNG
(convert.py:64: `f"row_{row_idx:06d}_{col_name}_{img_counter:03d}.png"`). -/
def ImgWrite.filename (wr : ImgWrite) : String :=
  "row_" ++ natPad wr.rowIdx 6 ++ "_" ++ wr.colName ++ "_" ++
    natPad wr.counter 3 ++ ".png"

/-- Mutable context of a conversion run: the `img_counter_dict` and the
sequence of PNG files written under `images/` so far. -/
structure ConvState where
  counters : List (String × Nat)
  written : List ImgWrite
  deriving DecidableEq

/-- `img_counter_dict.get(key, 0)`. -/
def counterGet (cs : List (String × Nat)) (k : String) : Nat :=
  match cs with
  | [] => 0
  | (k1, n) :: rest => if k1 = k then n else counterGet rest k

/-- `img_counter_dict[key] = n`. -/
def counterSet (cs : List (String × Nat)) (k : String) (n : Nat) :
    List (String × Nat) :=
  match cs with
  | [] => [(k, n)]
  | (k1, m) :: rest => if k1 = k then (k1, n) :: rest else (k1, m) :: counterSet rest k n

/-- `save_image_to_file` (convert.py:43-71): writes the PNG under `images/`
and returns the relative path `images/{filename}`. -/
def save_image_to_file (png : List Nat) (rowIdx : Nat) (colName : String)
    (counter : Nat) (st : ConvState) : String × ConvState :=
  let wr : ImgWrite := ⟨rowIdx, colName, counter, png⟩
  ("images/" ++ wr.filename, { st with written := st.written ++ [wr] })

/-! `process_value` (convert.py:96-196). `dec` models
`bytes_to_image` (convert.py:84-93) combined with the PNG re-serialisation done
when the decoded PIL image is saved: `dec bs = some png` when PIL can open the
bytes (png being the re-encoded content), `none` when `Image.open` fails.
`enabled` models `image_dir is not None and row_idx is not None and
col_name is not None`. -/

mutual

def process_value (dec : List Nat → Option (List Nat)) (enabled : Bool)
    (rowIdx : Nat) (v : PyVal) (colName : String) (st : ConvState) :
    PyVal × ConvState :=
  match v with
  | .vNone => (.vNone, st)
  | .vDict kvs =>
    if is_datadreamer_image_format (.vDict kvs) then
      let imgBytes := dictImageBytes kvs
      let base64Data := b64encode imgBytes
      if enabled then
        match dec imgBytes with
        | some png =>
          let key := toString rowIdx ++ "_" ++ colName
          let cnt := counterGet st.counters key + 1
          let st1 : ConvState := { st with counters := counterSet st.counters key cnt }
          let res := save_image_to_file png rowIdx colName cnt st1
          (.vDict [("type", .vStr "image"), ("format", .vStr "base64_png"),
                   ("data", .vStr base64Data), ("file_path", .vStr res.1)], res.2)
        | Option.none =>
          (.vDict [("type", .vStr "image"), ("format", .vStr "base64_png"),
                   ("data", .vStr base64Data)], st)
      else
        (.vDict [("type", .vStr "image"), ("format", .vStr "base64_png"),
                 ("data", .vStr base64Data)], st)
    else
      let res := process_dict_items dec enabled rowIdx kvs colName st
      (.vDict res.1, res.2)
  | .vImage png =>
    if enabled then
      let key := toString rowIdx ++ "_" ++ colName
      let cnt := counterGet st.counters key + 1
      let st1 : ConvState := { st with counters := counterSet st.counters key cnt }
      let res := save_image_to_file png rowIdx colName cnt st1
      (.vDict [("type", .vStr "image"), ("format", .vStr "base64_png"),
               ("data", .vStr (image_to_base64 png)), ("file_path", .vStr res.1)], res.2)
    else
      (.vDict [("type", .vStr "image"), ("format", .vStr "base64_png"),
               ("data", .vStr (image_to_base64 png))], st)
  | .vList xs =>
    let res := process_list_items dec enabled rowIdx xs colName 0 st
    (.vList res.1, res.2)
  | .vBytes bs =>
    match utf8Decode bs with
    | some s => (.vStr s, st)
    | Option.none => (.vStr (b64encode bs), st)
  | .vStr s => (.vStr s, st)
  | .vInt n => (.vInt n, st)
  | .vBool b => (.vBool b, st)

def process_list_items (dec : List Nat → Option (List Nat)) (enabled : Bool)
    (rowIdx : Nat) (xs : List PyVal) (colName : String) (i : Nat)
    (st : ConvState) : List PyVal × ConvState :=
  match xs with
  | [] => ([], st)
  | x :: rest =>
    let res := process_value dec enabled rowIdx x (colName ++ "_item" ++ toString i) st
    let res2 := process_list_items dec enabled rowIdx rest colName (i + 1) res.2
    (res.1 :: res2.1, res2.2)

def process_dict_items (dec : List Nat → Option (List Nat)) (enabled : Bool)
    (rowIdx : Nat) (kvs : List (String × PyVal)) (colName : String)
    (st : ConvState) : List (String × PyVal) × ConvState :=
  match kvs with
  | [] => ([], st)
  | (k, x) :: rest =>
    let res := process_value dec enabled rowIdx x (colName ++ "_" ++ k) st
    let res2 := process_dict_items dec enabled rowIdx rest colName res.2
    ((k, res.1) :: res2.1, res2.2)

end

/-- One cell of the conversion loop (convert.py:233-258). In this value
universe `pd.isna` is true exactly on `None`, and the `except (ValueError,
TypeError)` fallback computes the same `process_value` call as the `try`
branch, so the cell result collapses to: `None` stays `None`, everything else
is processed (always with the image directory enabled, as in
`convert_dataset_to_jsonl`). -/
def convertCell (dec : List Nat → Option (List Nat)) (rowIdx : Nat) (v : PyVal)
    (colName : String) (st : ConvState) : PyVal × ConvState :=
  match v with
  | .vNone => (.vNone, st)
  | v1 => process_value dec true rowIdx v1 colName st

/-- The condition counted into `row_image_count` (convert.py:246-249):
the processed value is a dict with `"type" == "image"` and a `"file_path"` key. -/
def isImageWithFilePath (v : PyVal) : Bool :=
  match v with
  | .vDict kvs =>
    (match pyLookup kvs "type" with
     | some (.vStr s) => s = "image"
     | _ => false) &&
      (pyLookup kvs "file_path").isSome
  | _ => false

/-- The column loop of `convert_dataset_to_jsonl` (convert.py:233-258):
builds `row_dict`, counts `row_image_count`, threads the counter dict. -/
def convertCols (dec : List Nat → Option (List Nat)) (rowIdx : Nat) :
    List (String × PyVal) → List (String × PyVal) → Nat → ConvState →
      List (String × PyVal) × Nat × ConvState
  | [], rowDict, cnt, st => (rowDict, cnt, st)
  | (col, v) :: rest, rowDict, cnt, st =>
    let res := convertCell dec rowIdx v col st
    convertCols dec rowIdx rest (dictSet rowDict col res.1)
      (cnt + (if isImageWithFilePath res.1 then 1 else 0)) res.2

/-- One iteration of the row loop (convert.py:229-269): process all columns,
then add the `_metadata` object with the row index and `images_in_row`. -/
def convert_row (dec : List Nat → Option (List Nat)) (rowIdx : Nat)
    (row : List (String × PyVal)) (st : ConvState) :
    List (String × PyVal) × ConvState :=
  let res := convertCols dec rowIdx row [] 0 st
  (dictSet res.1 "_metadata"
      (.vDict [("row_index", .vInt rowIdx), ("images_in_row", .vInt res.2.1)]),
   res.2.2)

/-- The full row loop: one emitted JSON object per source row, in order. -/
def convertRowsLoop (dec : List Nat → Option (List Nat)) (rowIdx : Nat)
    (rows : List (List (String × PyVal))) (st : ConvState) :
    List (List (String × PyVal)) × ConvState :=
  match rows with
  | [] => ([], st)
  | row :: rest =>
    let res := convert_row dec rowIdx row st
    let res2 := convertRowsLoop dec (rowIdx + 1) rest res.2
    (res.1 :: res2.1, res2.2)

/-- `convert_dataset_to_jsonl` (convert.py:199-293), modelled at the level of
the emitted JSON objects (one per line of the `.jsonl` file, in row order)
and the image files written, starting from an empty counter dict. -/
def convert_dataset_to_jsonl (dec : List Nat → Option (List Nat))
    (rows : List (List (String × PyVal))) :
    List (List (String × PyVal)) × ConvState :=
  convertRowsLoop dec 0 rows ⟨[], []⟩

/-! Specification-side helpers used to state properties of the converter. -/

mutual

/-- Number of image-bearing values (DataDreamer image records and PIL images)
inside a value, counting an image record as one value without recursing into it
— exactly the values `process_value` renders in the `{"type":"image",...}` form. -/
def countImages : PyVal → Nat
  | .vDict kvs =>
    if is_datadreamer_image_format (.vDict kvs) then 1 else countImagesDict kvs
  | .vImage _ => 1
  | .vList xs => countImagesList xs
  | _ => 0

def countImagesList : List PyVal → Nat
  | [] => 0
  | x :: rest => countImages x + countImagesList rest

def countImagesDict : List (String × PyVal) → Nat
  | [] => 0
  | (_, x) :: rest => countImages x + countImagesDict rest

end

/-- Image-bearing values in one row. -/
def countImagesRow (row : List (String × PyVal)) : Nat := countImagesDict row

/-- Image-bearing values across all rows of a dataset. -/
def countImagesDataset (rows : List (List (String × PyVal))) : Nat :=
  match rows with
  | [] => 0
  | row :: rest => countImagesRow row + countImagesDataset rest

mutual

/-- Number of image-bearing values inside a value for which a PNG file is
actually written: a DataDreamer image record counts only when `dec` (the model
of `bytes_to_image`, i.e. whether PIL can open the payload) succeeds on its
bytes; a PIL image always counts (it is saved directly, no decoding step). -/
def countDecodableImages (dec : List Nat → Option (List Nat)) : PyVal → Nat
  | .vDict kvs =>
    if is_datadreamer_image_format (.vDict kvs) then
      if (dec (dictImageBytes kvs)).isSome then 1 else 0
    else countDecodableImagesDict dec kvs
  | .vImage _ => 1
  | .vList xs => countDecodableImagesList dec xs
  | _ => 0

def countDecodableImagesList (dec : List Nat → Option (List Nat)) :
    List PyVal → Nat
  | [] => 0
  | x :: rest => countDecodableImages dec x + countDecodableImagesList dec rest

def countDecodableImagesDict (dec : List Nat → Option (List Nat)) :
    List (String × PyVal) → Nat
  | [] => 0
  | (_, x) :: rest =>
    countDecodableImages dec x + countDecodableImagesDict dec rest

end

/-- Decodable image-bearing values in one row. -/
def countDecodableImagesRow (dec : List Nat → Option (List Nat))
    (row : List (String × PyVal)) : Nat :=
  countDecodableImagesDict dec row

/-- Decodable image-bearing values across all rows of a dataset. -/
def countDecodableImagesDataset (dec : List Nat → Option (List Nat)) :
    List (List (String × PyVal)) → Nat
  | [] => 0
  | row :: rest =>
    countDecodableImagesRow dec row + countDecodableImagesDataset dec rest

mutual

/-- Values containing no bytes payloads and no images: exactly the values
`process_value` passes through unchanged. -/
def isPlain : PyVal → Bool
  | .vNone => true
  | .vStr _ => true
  | .vInt _ => true
  | .vBool _ => true
  | .vBytes _ => false
  | .vImage _ => false
  | .vList xs => isPlainList xs
  | .vDict kvs => isPlainDict kvs

def isPlainList : List PyVal → Bool
  | [] => true
  | x :: rest => isPlain x && isPlainList rest

def isPlainDict : List (String × PyVal) → Bool
  | [] => true
  | (_, x) :: rest => isPlain x && isPlainDict rest

end

/-- Spec-side rendering of the column loop without the `row_dict` accumulator:
the processed `(column, value)` pairs in order, threading the same state. -/
def procCols (dec : List Nat → Option (List Nat)) (rowIdx : Nat) :
    List (String × PyVal) → ConvState → List (String × PyVal) × ConvState
  | [], st => ([], st)
  | (col, v) :: rest, st =>
    let res := convertCell dec rowIdx v col st
    let res2 := procCols dec rowIdx rest res.2
    ((col, res.1) :: res2.1, res2.2)

/-- How many processed column values satisfy the `row_image_count` condition. -/
def countWithFile (ps : List (String × PyVal)) : Nat :=
  (ps.filter (fun p => isImageWithFilePath p.2)).length

/-- The keys of an insertion-ordered dict. -/
def dictKeys (kvs : List (String × PyVal)) : List String := kvs.map Prod.fst

/-! ## Sandboxed code-execution wrapper
(`execute_code_and_generate_image`, generate_diagram.py:163-188 and the
textually identical wrapper in generate_chemical.py:62-87). -/

/-- Process-wide state the wrapper mutates: the working directory
(`os.chdir`) and the pending `signal.alarm` seconds (0 = disarmed). -/
structure ProcState where
  cwd : String
  alarm : Nat
  deriving DecidableEq

/-- What happens in the `try` body once the renderer runs the generated code:
it returns a PIL image, returns a non-image value (the wrapper then raises
`TypeError`), the SIGALRM fires (`TimeoutException`), or the rendering raises
some other exception. -/
inductive RenderOutcome where
  | image (png : List Nat)
  | nonImage
  | timeout
  | raises (msg : String)
  deriving DecidableEq

/-- One row of the zipped dataset the wrapper maps over; only the `image`
column is written by the wrapper. -/
structure PipeRow where
  code : String
  image : Option (List Nat)
  deriving DecidableEq

/-- Modelled from the spec: `process_image` (from `pipeline/utils/utils.py`,
not included under src/) converts the rendered output into the image stored in
the dataset; the spec only requires that a raster image is captured on
success, so it is modelled as returning the rendered PNG. -/
def process_image (png : List Nat) : List Nat := png

/-- The timeout default of `execute_code_and_generate_image` (`timeout=20`). -/
def execTimeoutDefault : Nat := 20

/-- `execute_code_and_generate_image` (generate_diagram.py:163-188):
save `os.getcwd()`, `os.chdir` into a fresh temp dir, arm the alarm, run the
body (all four outcomes are caught except success), and in `finally` disarm
the alarm and restore the working directory. `outcome` is what the `try` body
does for this row. -/
def execute_code_and_generate_image (outcome : RenderOutcome) (row : PipeRow)
    (tmpdir : String) (st : ProcState) (timeout : Nat := execTimeoutDefault) :
    PipeRow × ProcState :=
  let originalDir := st.cwd
  let st1 : ProcState := { cwd := tmpdir, alarm := timeout }
  let row1 :=
    match outcome with
    | .image png => { row with image := some (process_image png) }
    | .nonImage => { row with image := Option.none }
    | .timeout => { row with image := Option.none }
    | .raises _ => { row with image := Option.none }
  (row1, { st1 with alarm := 0, cwd := originalDir })

/-- The `Generate Images` map step (generate_diagram.py:190-194): apply the
wrapper to every row in order, threading the process state; `outcomeOf` and
`tmpdirOf` give each row's rendering outcome and fresh temp directory. -/
def generateImagesStep (outcomeOf : PipeRow → RenderOutcome)
    (tmpdirOf : PipeRow → String) (rows : List PipeRow) (st : ProcState) :
    List PipeRow × ProcState :=
  match rows with
  | [] => ([], st)
  | row :: rest =>
    let res := execute_code_and_generate_image (outcomeOf row) row (tmpdirOf row) st
    let res2 := generateImagesStep outcomeOf tmpdirOf rest res.2
    (res.1 :: res2.1, res2.2)

/-- The `Remove invalid images` filter step (generate_diagram.py:197-201):
keep exactly the rows whose `image` is not `None`. -/
def removeInvalidImages (rows : List PipeRow) : List PipeRow :=
  rows.filter (fun r => r.image.isSome)

/-! ## `--num` parsing (`run_datadreamer_session`, all_pipelines.py:214-220). -/

/-- Python `str.strip()` (whitespace). -/
def pyStrip (s : String) : String :=
  String.mk (((s.toList.dropWhile Char.isWhitespace).reverse.dropWhile
    Char.isWhitespace).reverse)

/-- Python `str.strip(",")`: remove leading and trailing commas. -/
def pyStripCommas (s : String) : String :=
  String.mk ((s.toList.dropWhile (fun c => c = ',')).reverse.dropWhile
    (fun c => c = ',')).reverse

/-- Python `int(s)` on a string: optional surrounding whitespace, optional
sign, then at least one digit; anything else raises `ValueError`. -/
def pyInt (s : String) : Except String Int :=
  let t := (pyStrip s).toList
  let core : List Char × Bool :=
    match t with
    | '-' :: rest => (rest, true)
    | '+' :: rest => (rest, false)
    | rest => (rest, false)
  if core.1 ≠ [] ∧ core.1.all (fun c => c.isDigit) then
    let n : Nat := core.1.foldl (fun acc c => acc * 10 + (c.toNat - 48)) 0
    pure (if core.2 then -(n : Int) else (n : Int))
  else
    Except.error ("ValueError: invalid literal for int() with base 10: " ++ s)

/-- The per-pipeline count computation (all_pipelines.py:214-220): if
`args.num` contains a comma, the code iterates over the CHARACTERS of
`args.num.strip(",")` (note: `strip`, not `split`) and applies
`int(n.strip())` to each, then asserts the list length equals the number of
selected pipelines; otherwise `int(args.num)` is broadcast to every pipeline. -/
def parseNums (num : String) (numPipelines : Nat) : Except String (List Int) :=
  if num.toList.contains ',' then
    match (pyStripCommas num).toList.mapM
        (fun c => pyInt (pyStrip (String.mk [c]))) with
    | Except.error e => Except.error e
    | Except.ok nums =>
      if nums.length = numPipelines then Except.ok nums
      else Except.error "AssertionError: Number of counts must match number of pipelines"
  else
    match pyInt num with
    | Except.error e => Except.error e
    | Except.ok n => Except.ok (List.replicate numPipelines n)

/-! ## `validate_config` (main.py:15-101) and the exit-1 guard (main.py:204-207). -/

/-- The process environment: `none` = variable unset. -/
def Env : Type := String → Option String

/-- `os.getenv(k, d)`. -/
def getenvD (env : Env) (k d : String) : String := (env k).getD d

/-- Truthiness of `os.getenv(var)` as used in `if not os.getenv(var)`:
a variable is "present" only when set to a non-empty string. -/
def envTruthy (env : Env) (k : String) : Bool :=
  match env k with
  | some s => s ≠ ""
  | Option.none => false

/-- The required variables of each API mode (main.py:24, 35, 46-52). -/
def requiredVars (mode : String) : List String :=
  if mode = "official" then ["OPENAI_API_KEY", "ANTHROPIC_API_KEY"]
  else if mode = "proxy" then ["PROXY_API_KEY", "PROXY_BASE_URL"]
  else if mode = "azure" then
    ["AZURE_OPENAI_TENANT_ID", "AZURE_OPENAI_CLIENT_ID",
     "AZURE_OPENAI_CLIENT_SECRET", "AZURE_OPENAI_ENDPOINT",
     "AZURE_OPENAI_API_VERSION"]
  else []

/-- The optional Azure deployment-mapping variables (main.py:62-66); when
missing they only produce a warning and defaults, never a failure. -/
def deploymentVars : List String :=
  ["AZURE_OPENAI_DEPLOYMENT", "AZURE_OPENAI_MINI_DEPLOYMENT",
   "AZURE_ANTHROPIC_DEPLOYMENT"]

/-- `validate_config` (main.py:15-101): the mode defaults to `official`;
each recognised mode checks that its required variables are truthy (the Azure
deployment-mapping check at main.py:61-72 only prints a warning); an
unrecognised mode fails. -/
def validate_config (env : Env) : Bool :=
  let apiMode := getenvD env "API_MODE" "official"
  if apiMode = "official" then
    (requiredVars "official").all (envTruthy env)
  else if apiMode = "proxy" then
    (requiredVars "proxy").all (envTruthy env)
  else if apiMode = "azure" then
    (requiredVars "azure").all (envTruthy env)
  else false

/-- The `__main__` guard (main.py:204-207): exit code 1 when validation
fails, before any LLM client is constructed; `none` = proceed to the session. -/
def mainExitCode (env : Env) : Option Nat :=
  if validate_config env then Option.none else some 1

/-! ## `azure_create` (azure_llm.py:197-241). -/

/-- A Python exception escaping the Azure wrapper: either the provider error
re-raised unchanged, or the `ValueError` the wrapper substitutes for
deployment-not-found errors. -/
inductive AzureErr where
  | generic (msg : String)
  | valueError (msg : String)
  deriving DecidableEq

/-- `needle in haystack` on Python strings. -/
def strContains (haystack needle : String) : Bool :=
  decide (List.IsInfix needle.toList haystack.toList)

/-- The message of the `ValueError` raised for deployment-not-found
(azure_llm.py:236-238). -/
def deploymentNotFoundMsg (deployment originalModel : String) : String :=
  "Azure deployment '" ++ deployment ++ "' for model '" ++ originalModel ++
    "' not found. Please check your deployment configuration in the Azure portal."

/-- Result of one `azure_create` call: the returned response or escaping
exception, how many times `original_create` was invoked, and how many times
`_refresh_client_token` ran. -/
structure AzureCallResult (α : Type) where
  result : Except AzureErr α
  createCalls : Nat
  tokenRefreshes : Nat

/-- `azure_create` (azure_llm.py:197-241): call `original_create`; on an
error whose message contains `"401"` or `"Unauthorized"`, refresh the token
and retry exactly once (a second failure propagates); otherwise, on a message
containing `"DeploymentNotFound"` or `"NotFound"`, raise a `ValueError` naming
the deployment and original model; any other error is re-raised unchanged.
`attempt n` is the outcome of the `n`-th `original_create` invocation. -/
def azure_create (α : Type) (deployment originalModel : String)
    (attempt : Nat → Except String α) : AzureCallResult α :=
  match attempt 0 with
  | Except.ok r => ⟨Except.ok r, 1, 0⟩
  | Except.error e =>
    if strContains e "401" || strContains e "Unauthorized" then
      match attempt 1 with
      | Except.ok r => ⟨Except.ok r, 2, 1⟩
      | Except.error e2 => ⟨Except.error (.generic e2), 2, 1⟩
    else if strContains e "DeploymentNotFound" || strContains e "NotFound" then
      ⟨Except.error (.valueError (deploymentNotFoundMsg deployment originalModel)), 1, 0⟩
    else
      ⟨Except.error (.generic e), 1, 0⟩

/-! ## Concrete inputs used to evaluate the embedded code. -/

/-- An environment where both official-mode keys are SET, but one is set to
the empty string. -/
def envEmptyKey : Env := fun k =>
  if k = "OPENAI_API_KEY" then some ""
  else if k = "ANTHROPIC_API_KEY" then some "sk-test" else Option.none

/-- A provider whose first call fails with a message containing both `"401"`
and `"NotFound"`, and whose second call succeeds. -/
def attempt401NotFound : Nat → Except String Nat := fun n =>
  if n = 0 then Except.error "Error code: 401 - DeploymentNotFound" else Except.ok 0

/-- A decoder (model of `PIL.Image.open` via `bytes_to_image`) that accepts
every byte string. -/
def decodeAll : List Nat → Option (List Nat) := fun bs => some bs

/-- A decoder that rejects the given bytes (PIL cannot parse them as an
image, so `bytes_to_image` returns `None`). -/
def decodeNone : List Nat → Option (List Nat) := fun _ => Option.none

/-- 101 arbitrary bytes: long enough to classify as a DataDreamer image
record, but not a valid PNG/JPEG payload. -/
def junkBytes : List Nat := List.replicate 101 7

/-- A one-row dataset whose single column holds an image record with
undecodable bytes. -/
def rowsUndecodable : List (List (String × PyVal)) :=
  [[("img", PyVal.vDict [("bytes", PyVal.vBytes junkBytes), ("path", PyVal.vStr "")])]]

/-- A decoder that can open exactly the all-zero payloads: used to exercise a
dataset mixing decodable and undecodable image records. -/
def decodeZerosOnly : List Nat → Option (List Nat) := fun bs =>
  if bs.all (fun b => b = 0) then some bs else Option.none

/-- A one-row dataset with two image records: one whose 101-byte payload
`decodeZerosOnly` can open, one it cannot. -/
def rowsMixed : List (List (String × PyVal)) :=
  [[("good", PyVal.vDict [("bytes", PyVal.vBytes (List.replicate 101 0)),
      ("path", PyVal.vStr "")]),
    ("bad", PyVal.vDict [("bytes", PyVal.vBytes junkBytes),
      ("path", PyVal.vStr "")])]]

/-- A one-row dataset whose single column holds a short `bytes` value. -/
def rowsShortBytes : List (List (String × PyVal)) :=
  [[("note", PyVal.vBytes [104, 105])]]

/-- A one-row dataset whose single column holds a LIST containing one image
record (a nested image). -/
def rowsNestedImage : List (List (String × PyVal)) :=
  [[("imgs", PyVal.vList
      [PyVal.vDict [("bytes", PyVal.vBytes junkBytes), ("path", PyVal.vStr "")]])]]

/-- Project a field out of an emitted `{"type":"image",...}` object. -/
def objField (v : PyVal) (k : String) : Option PyVal :=
  match v with
  | .vDict l => pyLookup l k
  | _ => Option.none

theorem b64IndexOfChar_b64CharOfIndex (n : Nat) (h : n < 64) :
    b64IndexOfChar (b64CharOfIndex n) = n := by
  have key : ∀ m : Fin 64, b64IndexOfChar (b64CharOfIndex m.val) = m.val := by decide
  exact key ⟨n, h⟩

theorem b64CharOfIndex_ne_pad (n : Nat) (h : n < 64) : b64CharOfIndex n ≠ '=' := by
  have key : ∀ m : Fin 64, b64CharOfIndex m.val ≠ '=' := by decide
  exact key ⟨n, h⟩

theorem b64DecodeChunks_b64EncodeChunks :
    ∀ bs : List Nat, (∀ x ∈ bs, x < 256) →
      b64DecodeChunks (b64EncodeChunks bs) = bs
  | [], _ => rfl
  | [a], h => by
    have ha : a < 256 := h a (by simp)
    have h1 : a / 4 < 64 := by omega
    have h2 : a % 4 * 16 < 64 := by omega
    simp only [b64EncodeChunks, b64DecodeChunks]
    rw [b64IndexOfChar_b64CharOfIndex _ h1, b64IndexOfChar_b64CharOfIndex _ h2]
    simp
    omega
  | [a, b], h => by
    have ha : a < 256 := h a (by simp)
    have hb : b < 256 := h b (by simp)
    have h1 : a / 4 < 64 := by omega
    have h2 : a % 4 * 16 + b / 16 < 64 := by omega
    have h3 : b % 16 * 4 < 64 := by omega
    simp only [b64EncodeChunks, b64DecodeChunks]
    rw [if_neg (b64CharOfIndex_ne_pad _ h3)]
    rw [b64IndexOfChar_b64CharOfIndex _ h1, b64IndexOfChar_b64CharOfIndex _ h2,
        b64IndexOfChar_b64CharOfIndex _ h3]
    simp
    omega
  | a :: b :: c :: rest, h => by
    have ha : a < 256 := h a (by simp)
    have hb : b < 256 := h b (by simp)
    have hc : c < 256 := h c (by simp)
    have h1 : a / 4 < 64 := by omega
    have h2 : a % 4 * 16 + b / 16 < 64 := by omega
    have h3 : b % 16 * 4 + c / 64 < 64 := by omega
    have h4 : c % 64 < 64 := by omega
    have ih := b64DecodeChunks_b64EncodeChunks rest
      (fun x hx => h x (by simp [hx]))
    simp only [b64EncodeChunks, b64DecodeChunks]
    rw [if_neg (b64CharOfIndex_ne_pad _ h3), if_neg (b64CharOfIndex_ne_pad _ h4)]
    rw [b64IndexOfChar_b64CharOfIndex _ h1, b64IndexOfChar_b64CharOfIndex _ h2,
        b64IndexOfChar_b64CharOfIndex _ h3, b64IndexOfChar_b64CharOfIndex _ h4]
    have e1 : a / 4 * 4 + (a % 4 * 16 + b / 16) / 16 = a := by omega
    have e2 : (a % 4 * 16 + b / 16) % 16 * 16 + (b % 16 * 4 + c / 64) / 4 = b := by omega
    have e3 : (b % 16 * 4 + c / 64) % 4 * 64 + c % 64 = c := by omega
    simp [e1, e2, e3, ih]

theorem b64decode_b64encode (bs : List Nat) (h : ∀ x ∈ bs, x < 256) :
    b64decode (b64encode bs) = bs := by
  unfold b64decode b64encode
  rw [show (String.mk (b64EncodeChunks bs)).toList = b64EncodeChunks bs from rfl]
  exact b64DecodeChunks_b64EncodeChunks bs h

/-! ## Helper lemmas -/

theorem generateImagesStep_length (outcomeOf : PipeRow → RenderOutcome)
    (tmpdirOf : PipeRow → String) :
    ∀ (rows : List PipeRow) (st : ProcState),
      (generateImagesStep outcomeOf tmpdirOf rows st).1.length = rows.length
  | [], _ => rfl
  | _ :: rest, st => by
    simp [generateImagesStep, generateImagesStep_length outcomeOf tmpdirOf rest]

/-! ## Claim theorems -/

/-- C1: for every row processed by the sandboxed wrapper, a rendering that
exceeds the timeout budget (default 20 seconds) ends with the row's image set
to `None`, and on every exit path — success, timeout, or any other exception —
the working directory is restored and the alarm is disarmed. -/
theorem execute_code_timeout_and_cleanup (outcome : RenderOutcome)
    (row : PipeRow) (tmpdir : String) (st : ProcState) (timeout : Nat) :
    ((execute_code_and_generate_image outcome row tmpdir st timeout).2.cwd = st.cwd ∧
      (execute_code_and_generate_image outcome row tmpdir st timeout).2.alarm = 0) ∧
    (execute_code_and_generate_image RenderOutcome.timeout row tmpdir st timeout).1.image
      = Option.none ∧
    execTimeoutDefault = 20 :=
  ⟨⟨rfl, rfl⟩, rfl, rfl⟩

/-- C2: every exception raised during generated-code execution (including the
`TypeError` raised when the rendering result is not a PIL image) is converted
to a `None` image inside the wrapper, the per-row map over the batch produces
one output row per input row (it never aborts), and the filter step keeps
exactly the rows whose image is not `None`. -/
theorem map_catches_errors_filter_drops_none (outcomeOf : PipeRow → RenderOutcome)
    (tmpdirOf : PipeRow → String) (rows : List PipeRow) (st : ProcState) :
    (generateImagesStep outcomeOf tmpdirOf rows st).1.length = rows.length ∧
    (∀ (row : PipeRow) (tmpdir : String) (st1 : ProcState) (t : Nat) (msg : String),
      (execute_code_and_generate_image (RenderOutcome.raises msg) row tmpdir st1 t).1.image
        = Option.none ∧
      (execute_code_and_generate_image RenderOutcome.nonImage row tmpdir st1 t).1.image
        = Option.none) ∧
    (∀ r : PipeRow,
      r ∈ removeInvalidImages (generateImagesStep outcomeOf tmpdirOf rows st).1 ↔
      r ∈ (generateImagesStep outcomeOf tmpdirOf rows st).1 ∧ r.image ≠ Option.none) := by
  refine ⟨generateImagesStep_length outcomeOf tmpdirOf rows st,
    fun _ _ _ _ _ => ⟨rfl, rfl⟩, fun r => ?_⟩
  simp [removeInvalidImages, List.mem_filter, Option.isSome_iff_ne_none]

/-- C4: the code at all_pipelines.py:216 iterates over the CHARACTERS of
`args.num.strip(",")` instead of splitting on commas, so any comma-separated
list raises `ValueError` at the comma character (here: `--num 2,3` with two
selected pipelines); only the single-integer broadcast path works. -/
theorem parseNums_comma_list_raises :
    parseNums "2,3" 2 =
      Except.error "ValueError: invalid literal for int() with base 10: ," ∧
    parseNums "7" 3 = Except.ok [7, 7, 7] :=
  ⟨rfl, rfl⟩

/-- C8 counterexample: an error whose message contains `"NotFound"` is NOT
re-raised as a `ValueError` when the message also contains `"401"` — the
auth branch is checked first and the call is retried instead. -/
theorem azure_create_notfound_message_retried :
    strContains "Error code: 401 - DeploymentNotFound" "NotFound" = true ∧
    (azure_create Nat "dep" "gpt-4o" attempt401NotFound).result = Except.ok 0 ∧
    (azure_create Nat "dep" "gpt-4o" attempt401NotFound).createCalls = 2 ∧
    (azure_create Nat "dep" "gpt-4o" attempt401NotFound).tokenRefreshes = 1 := by
  refine ⟨by decide, rfl, rfl, rfl⟩

/-- C8 (amended): the branches are checked in order — a message containing
`"401"` or `"Unauthorized"` triggers exactly one retry after a token refresh
(a second failure propagates); otherwise a message containing
`"DeploymentNotFound"` or `"NotFound"` becomes a `ValueError` naming the
deployment and the original model; otherwise the error propagates unchanged. -/
theorem azure_create_error_precedence (α : Type) (dep model : String)
    (attempt : Nat → Except String α) (msg : String)
    (h : attempt 0 = Except.error msg) :
    ((strContains msg "401" || strContains msg "Unauthorized") = true →
      azure_create α dep model attempt =
        ⟨match attempt 1 with
          | Except.ok r => Except.ok r
          | Except.error e2 => Except.error (.generic e2), 2, 1⟩) ∧
    ((strContains msg "401" || strContains msg "Unauthorized") = false →
      (strContains msg "DeploymentNotFound" || strContains msg "NotFound") = true →
      azure_create α dep model attempt =
        ⟨Except.error (.valueError (deploymentNotFoundMsg dep model)), 1, 0⟩) ∧
    ((strContains msg "401" || strContains msg "Unauthorized") = false →
      (strContains msg "DeploymentNotFound" || strContains msg "NotFound") = false →
      azure_create α dep model attempt = ⟨Except.error (.generic msg), 1, 0⟩) := by
  refine ⟨fun h1 => ?_, fun h1 h2 => ?_, fun h1 h2 => ?_⟩
  · simp only [azure_create, h, h1, if_pos]
    cases attempt 1 <;> rfl
  · simp only [azure_create, h, h1, h2]
    rfl
  · simp only [azure_create, h, h1, h2]
    rfl

theorem azure_create_error_precedence_witness :
    azure_create Nat "dep" "gpt-4o" (fun _ => Except.error "boom") =
      ⟨Except.error (.generic "boom"), 1, 0⟩ :=
  (azure_create_error_precedence Nat "dep" "gpt-4o"
      (fun _ => Except.error "boom") "boom" rfl).2.2 (by decide) (by decide)

/-- C10: a dict value is classified as a DataDreamer image record exactly when
its `"bytes"` key holds a `bytes` value strictly longer than 100 bytes; a dict
failing that test is recursed into as an ordinary mapping by `process_value`
(so it is never emitted in the `{"type":"image",...}` form nor written as a
PNG itself). -/
theorem is_datadreamer_image_format_iff (kvs : List (String × PyVal)) :
    is_datadreamer_image_format (.vDict kvs) = true ↔
      ∃ bs, pyLookup kvs "bytes" = some (.vBytes bs) ∧ 100 < bs.length := by
  simp only [is_datadreamer_image_format]
  cases hb : pyLookup kvs "bytes" with
  | none => simp
  | some v => cases v <;> simp

/-- C10: a dict value is classified as a DataDreamer image record exactly when
its `"bytes"` key holds a `bytes` value strictly longer than 100 bytes; a dict
failing that test is recursed into as an ordinary mapping by `process_value`
(so it is never emitted in the `{"type":"image",...}` form nor written as a
PNG itself). -/
theorem image_record_classification (dec : List Nat → Option (List Nat))
    (en : Bool) (idx : Nat) (kvs : List (String × PyVal)) (col : String)
    (st : ConvState) :
    (is_datadreamer_image_format (.vDict kvs) = true ↔
      ∃ bs, pyLookup kvs "bytes" = some (.vBytes bs) ∧ 100 < bs.length) ∧
    (is_datadreamer_image_format (.vDict kvs) = false →
      process_value dec en idx (.vDict kvs) col st =
        (.vDict (process_dict_items dec en idx kvs col st).1,
          (process_dict_items dec en idx kvs col st).2)) := by
  refine ⟨is_datadreamer_image_format_iff kvs, fun h => ?_⟩
  simp only [process_value, h]
  simp

theorem image_record_classification_witness :
    process_value decodeAll true 0 (PyVal.vDict [("bytes", PyVal.vBytes [1, 2, 3])])
        "c" ⟨[], []⟩ =
      (.vDict (process_dict_items decodeAll true 0
          [("bytes", PyVal.vBytes [1, 2, 3])] "c" ⟨[], []⟩).1,
        (process_dict_items decodeAll true 0
          [("bytes", PyVal.vBytes [1, 2, 3])] "c" ⟨[], []⟩).2) :=
  (image_record_classification decodeAll true 0 _ "c" ⟨[], []⟩).2 rfl

/-- C7 counterexample: with `API_MODE` unset (defaulting to official) and BOTH
required variables set — one of them to the empty string — no required
variable is unset, yet validation fails and the CLI exits with code 1:
`if not os.getenv(var)` also treats empty-string values as missing. -/
theorem validate_config_fails_on_empty_string_var :
    validate_config envEmptyKey = false ∧
    (envEmptyKey "OPENAI_API_KEY").isSome = true ∧
    (envEmptyKey "ANTHROPIC_API_KEY").isSome = true ∧
    mainExitCode envEmptyKey = some 1 :=
  ⟨rfl, rfl, rfl, rfl⟩

/-- C7 (amended): startup validation fails (exit code 1, before any LLM call)
exactly when some required variable of the selected mode is unset OR set to
the empty string, or the mode is not one of official/proxy/azure; the Azure
deployment-mapping variables never influence the outcome. -/
theorem validate_config_failure_iff (env : Env) :
    (mainExitCode env = some 1 ↔
      ((getenvD env "API_MODE" "official" = "official" ∨
        getenvD env "API_MODE" "official" = "proxy" ∨
        getenvD env "API_MODE" "official" = "azure") ∧
        (∃ v ∈ requiredVars (getenvD env "API_MODE" "official"),
          envTruthy env v = false)) ∨
      (getenvD env "API_MODE" "official" ≠ "official" ∧
       getenvD env "API_MODE" "official" ≠ "proxy" ∧
       getenvD env "API_MODE" "official" ≠ "azure")) ∧
    (∀ env2 : Env, (∀ k, k ∉ deploymentVars → env2 k = env k) →
      validate_config env2 = validate_config env) := by
  constructor
  · have hmain : mainExitCode env = some 1 ↔ validate_config env = false := by
      unfold mainExitCode
      by_cases h : validate_config env <;> simp [h]
    rw [hmain]
    unfold validate_config
    have hall : ∀ l : List String,
        l.all (envTruthy env) = false ↔ ∃ v ∈ l, envTruthy env v = false := by
      intro l
      induction l with
      | nil => simp
      | cons a t ih => cases h : envTruthy env a <;> simp [h, ih]
    by_cases h1 : getenvD env "API_MODE" "official" = "official"
    · simp [h1, hall]
    · by_cases h2 : getenvD env "API_MODE" "official" = "proxy"
      · simp [h1, h2, hall]
      · by_cases h3 : getenvD env "API_MODE" "official" = "azure"
        · simp [h1, h2, h3, hall]
        · simp [h1, h2, h3]
  · intro env2 hag
    have e1 : getenvD env2 "API_MODE" "official" = getenvD env "API_MODE" "official" := by
      unfold getenvD
      rw [hag _ (by decide)]
    have hv : ∀ v, v ∉ deploymentVars → envTruthy env2 v = envTruthy env v := by
      intro v hvd
      unfold envTruthy
      rw [hag v hvd]
    unfold validate_config
    rw [e1]
    by_cases h1 : getenvD env "API_MODE" "official" = "official"
    · simp [h1, requiredVars, hv "OPENAI_API_KEY" (by decide),
        hv "ANTHROPIC_API_KEY" (by decide)]
    · by_cases h2 : getenvD env "API_MODE" "official" = "proxy"
      · simp [h1, h2, requiredVars, hv "PROXY_API_KEY" (by decide),
          hv "PROXY_BASE_URL" (by decide)]
      · by_cases h3 : getenvD env "API_MODE" "official" = "azure"
        · simp [h1, h2, h3, requiredVars,
            hv "AZURE_OPENAI_TENANT_ID" (by decide),
            hv "AZURE_OPENAI_CLIENT_ID" (by decide),
            hv "AZURE_OPENAI_CLIENT_SECRET" (by decide),
            hv "AZURE_OPENAI_ENDPOINT" (by decide),
            hv "AZURE_OPENAI_API_VERSION" (by decide)]
        · simp [h1, h2, h3]

/-- C5: base64 round-trip for emitted images — decoding the `data` field and
re-encoding reproduces the stored string, decoding gives back the source
record's bytes exactly, and the `data` field emitted by `process_value` for a
DataDreamer image record is precisely the base64 encoding of its bytes. -/
theorem image_data_base64_roundtrip (dec : List Nat → Option (List Nat))
    (idx : Nat) (col : String) (st : ConvState)
    (kvs : List (String × PyVal)) (bs : List Nat)
    (hb : pyLookup kvs "bytes" = some (.vBytes bs))
    (hlen : 100 < bs.length) (hval : ∀ x ∈ bs, x < 256) :
    b64decode (b64encode bs) = bs ∧
    b64encode (b64decode (b64encode bs)) = b64encode bs ∧
    objField (process_value dec true idx (.vDict kvs) col st).1 "data" =
      some (.vStr (b64encode bs)) := by
  have hfmt : is_datadreamer_image_format (.vDict kvs) = true :=
    (is_datadreamer_image_format_iff kvs).2 ⟨bs, hb, hlen⟩
  have hbytes : dictImageBytes kvs = bs := by simp [dictImageBytes, hb]
  have hrt := b64decode_b64encode bs hval
  refine ⟨hrt, by rw [hrt], ?_⟩
  simp only [process_value, hfmt, hbytes, if_true]
  cases dec bs <;> simp [objField, pyLookup, save_image_to_file]

theorem image_data_base64_roundtrip_witness :
    b64decode (b64encode junkBytes) = junkBytes ∧
    b64encode (b64decode (b64encode junkBytes)) = b64encode junkBytes ∧
    objField (process_value decodeAll true 0
        (PyVal.vDict [("bytes", PyVal.vBytes junkBytes), ("path", PyVal.vStr "")])
        "img" ⟨[], []⟩).1 "data" =
      some (PyVal.vStr (b64encode junkBytes)) :=
  image_data_base64_roundtrip decodeAll 0 "img" ⟨[], []⟩
    [("bytes", PyVal.vBytes junkBytes), ("path", PyVal.vStr "")] junkBytes rfl
    (by decide) (by decide)

/-- C3 counterexample: a non-image column holding the two-byte value
`b"hi"` is NOT preserved unchanged — the emitted object stores the decoded
string `"hi"` in its place (and a bytes value that is not valid UTF-8 would be
replaced by its base64 text). -/
theorem converter_changes_bytes_value :
    pyLookup ((convert_dataset_to_jsonl decodeAll rowsShortBytes).1.headD []) "note" =
      some (PyVal.vStr "hi") ∧
    some (PyVal.vStr "hi") ≠ some (PyVal.vBytes [104, 105]) :=
  ⟨rfl, by intro h; injection h with h1; exact PyVal.noConfusion h1⟩

/-- C6 counterexample: a row with one image-bearing value (an image record
with 101 bytes that PIL cannot decode) produces ZERO files under `images/`,
so the file count does not equal the image-value count. -/
theorem images_written_count_counterexample :
    (convert_dataset_to_jsonl decodeNone rowsUndecodable).2.written.length = 0 ∧
    countImagesDataset rowsUndecodable = 1 ∧
    (convert_dataset_to_jsonl decodeNone rowsUndecodable).2.written.length ≠
      countImagesDataset rowsUndecodable :=
  ⟨rfl, rfl, by decide⟩

/-- C9 counterexample: a row whose single column is a LIST containing one
image record gets a PNG file written for the nested image, yet its
`_metadata.images_in_row` is 0 — the counter only looks at top-level column
values, so it is not the count of images written for the row. -/
theorem metadata_nested_image_not_counted :
    pyLookup ((convert_dataset_to_jsonl decodeAll rowsNestedImage).1.headD []) "_metadata" =
      some (PyVal.vDict [("row_index", PyVal.vInt 0), ("images_in_row", PyVal.vInt 0)]) ∧
    (convert_dataset_to_jsonl decodeAll rowsNestedImage).2.written.length = 1 :=
  ⟨rfl, rfl⟩

/-! ## Structural lemmas about the converter -/

theorem convertRowsLoop_length (dec : List Nat → Option (List Nat)) :
    ∀ (idx : Nat) (rows : List (List (String × PyVal))) (st : ConvState),
      (convertRowsLoop dec idx rows st).1.length = rows.length
  | _, [], _ => rfl
  | idx, row :: rest, st => by
    simp [convertRowsLoop, convertRowsLoop_length dec (idx + 1) rest]

theorem pyLookup_append (l1 l2 : List (String × PyVal)) (k : String) :
    pyLookup (l1 ++ l2) k =
      match pyLookup l1 k with
      | some v => some v
      | Option.none => pyLookup l2 k := by
  induction l1 with
  | nil => rfl
  | cons p rest ih =>
    obtain ⟨k1, v1⟩ := p
    by_cases h : k1 = k <;> simp [pyLookup, h, ih]

theorem pyLookup_not_mem (l : List (String × PyVal)) (k : String)
    (h : k ∉ dictKeys l) : pyLookup l k = Option.none := by
  induction l with
  | nil => rfl
  | cons p rest ih =>
    obtain ⟨k1, v1⟩ := p
    have h1 : ¬ k1 = k := fun e => h (by simp [dictKeys, e])
    have h2 : k ∉ dictKeys rest := fun e => h (by simp [dictKeys]; exact Or.inr (by simpa [dictKeys] using e))
    simp [pyLookup, h1, ih h2]

theorem dictSet_fresh (l : List (String × PyVal)) (k : String) (v : PyVal)
    (h : k ∉ dictKeys l) : dictSet l k v = l ++ [(k, v)] := by
  induction l with
  | nil => rfl
  | cons p rest ih =>
    obtain ⟨k1, v1⟩ := p
    have h1 : ¬ k1 = k := fun e => h (by simp [dictKeys, e])
    have h2 : k ∉ dictKeys rest := fun e => h (by simp [dictKeys]; exact Or.inr (by simpa [dictKeys] using e))
    simp [dictSet, h1, ih h2]

theorem procCols_keys (dec : List Nat → Option (List Nat)) (idx : Nat) :
    ∀ (cols : List (String × PyVal)) (st : ConvState),
      dictKeys (procCols dec idx cols st).1 = cols.map Prod.fst
  | [], _ => rfl
  | (c, v) :: rest, st => by
    have ih := procCols_keys dec idx rest (convertCell dec idx v c st).2
    simp only [dictKeys] at ih
    simp [procCols, dictKeys, ih]

theorem procCols_length (dec : List Nat → Option (List Nat)) (idx : Nat)
    (cols : List (String × PyVal)) (st : ConvState) :
    (procCols dec idx cols st).1.length = cols.length := by
  have h := procCols_keys dec idx cols st
  have h1 := congrArg List.length h
  simpa [dictKeys] using h1

theorem countWithFile_cons (c : String) (p : PyVal) (ps : List (String × PyVal)) :
    countWithFile ((c, p) :: ps) =
      (if isImageWithFilePath p then 1 else 0) + countWithFile ps := by
  by_cases h : isImageWithFilePath p
  · simp [countWithFile, List.filter_cons, h]
    omega
  · simp [countWithFile, List.filter_cons, h]

theorem convertCols_spec (dec : List Nat → Option (List Nat)) (idx : Nat) :
    ∀ (cols rowDict : List (String × PyVal)) (cnt : Nat) (st : ConvState),
      (cols.map Prod.fst).Nodup →
      (∀ c ∈ cols.map Prod.fst, c ∉ dictKeys rowDict) →
      convertCols dec idx cols rowDict cnt st =
        (rowDict ++ (procCols dec idx cols st).1,
         cnt + countWithFile (procCols dec idx cols st).1,
         (procCols dec idx cols st).2)
  | [], rowDict, cnt, st, _, _ => by
    simp [convertCols, procCols, countWithFile]
  | (col, v) :: rest, rowDict, cnt, st, hnd, hfresh => by
    have hcolfresh : col ∉ dictKeys rowDict := hfresh col (by simp)
    have hnd1 : col ∉ rest.map Prod.fst ∧ (rest.map Prod.fst).Nodup := by
      rw [List.map_cons, List.nodup_cons] at hnd
      exact hnd
    have hfreshrest : ∀ c ∈ rest.map Prod.fst,
        c ∉ dictKeys (rowDict ++ [(col, (convertCell dec idx v col st).1)]) := by
      intro c hc
      have h1 : c ∉ dictKeys rowDict := hfresh c (by simp [hc])
      have h2 : ¬ c = col := fun e => hnd1.1 (e ▸ hc)
      simp [dictKeys] at h1 ⊢
      exact ⟨h1, h2⟩
    simp only [convertCols, procCols]
    rw [dictSet_fresh _ _ _ hcolfresh]
    rw [convertCols_spec dec idx rest _ _ _ hnd1.2 hfreshrest]
    rw [countWithFile_cons]
    simp [List.append_assoc]
    omega

theorem isPlainDict_lookup (v : PyVal) :
    ∀ (kvs : List (String × PyVal)), isPlainDict kvs = true →
      pyLookup kvs "bytes" = some v → isPlain v = true := by
  intro kvs
  induction kvs with
  | nil => intro _ hb; simp [pyLookup] at hb
  | cons p rest ih =>
    obtain ⟨k1, v1⟩ := p
    intro h hb
    rw [show isPlainDict ((k1, v1) :: rest) = (isPlain v1 && isPlainDict rest) from rfl,
      Bool.and_eq_true] at h
    by_cases hk : k1 = "bytes"
    · simp [pyLookup, hk] at hb
      exact hb ▸ h.1
    · simp [pyLookup, hk] at hb
      exact ih h.2 hb

theorem isPlainDict_not_image (kvs : List (String × PyVal))
    (h : isPlainDict kvs = true) :
    is_datadreamer_image_format (.vDict kvs) = false := by
  cases hfmt : is_datadreamer_image_format (.vDict kvs) with
  | false => rfl
  | true =>
    obtain ⟨bs, hb, _⟩ := (is_datadreamer_image_format_iff kvs).1 hfmt
    have := isPlainDict_lookup (.vBytes bs) kvs h hb
    simp [isPlain] at this

mutual

theorem process_value_plain (dec : List Nat → Option (List Nat)) (en : Bool)
    (idx : Nat) :
    ∀ (v : PyVal) (col : String) (st : ConvState), isPlain v = true →
      process_value dec en idx v col st = (v, st)
  | .vNone, _, _, _ => rfl
  | .vStr _, _, _, _ => rfl
  | .vInt _, _, _, _ => rfl
  | .vBool _, _, _, _ => rfl
  | .vBytes _, _, _, h => by simp [isPlain] at h
  | .vImage _, _, _, h => by simp [isPlain] at h
  | .vList xs, col, st, h => by
    have hl : isPlainList xs = true := by simpa [isPlain] using h
    simp [process_value, process_list_plain dec en idx xs col 0 st hl]
  | .vDict kvs, col, st, h => by
    have hd : isPlainDict kvs = true := by simpa [isPlain] using h
    simp [process_value, isPlainDict_not_image kvs hd,
      process_dict_plain dec en idx kvs col st hd]

theorem process_list_plain (dec : List Nat → Option (List Nat)) (en : Bool)
    (idx : Nat) :
    ∀ (xs : List PyVal) (col : String) (i : Nat) (st : ConvState),
      isPlainList xs = true →
      process_list_items dec en idx xs col i st = (xs, st)
  | [], _, _, _, _ => rfl
  | x :: rest, col, i, st, h => by
    have hx : isPlain x = true ∧ isPlainList rest = true := by
      rw [show isPlainList (x :: rest) = (isPlain x && isPlainList rest) from rfl,
        Bool.and_eq_true] at h
      exact h
    simp [process_list_items,
      process_value_plain dec en idx x (col ++ "_item" ++ toString i) st hx.1,
      process_list_plain dec en idx rest col (i + 1) st hx.2]

theorem process_dict_plain (dec : List Nat → Option (List Nat)) (en : Bool)
    (idx : Nat) :
    ∀ (kvs : List (String × PyVal)) (col : String) (st : ConvState),
      isPlainDict kvs = true →
      process_dict_items dec en idx kvs col st = (kvs, st)
  | [], _, _, _ => rfl
  | (k, x) :: rest, col, st, h => by
    have hx : isPlain x = true ∧ isPlainDict rest = true := by
      rw [show isPlainDict ((k, x) :: rest) = (isPlain x && isPlainDict rest) from rfl,
        Bool.and_eq_true] at h
      exact h
    simp [process_dict_items,
      process_value_plain dec en idx x (col ++ "_" ++ k) st hx.1,
      process_dict_plain dec en idx rest col st hx.2]

end

theorem convertCell_plain (dec : List Nat → Option (List Nat)) (idx : Nat)
    (v : PyVal) (col : String) (st : ConvState) (h : isPlain v = true) :
    convertCell dec idx v col st = (v, st) := by
  cases v with
  | vNone => rfl
  | vStr s => exact process_value_plain dec true idx (.vStr s) col st h
  | vInt n => exact process_value_plain dec true idx (.vInt n) col st h
  | vBool b => exact process_value_plain dec true idx (.vBool b) col st h
  | vBytes bs => simp [isPlain] at h
  | vImage p => simp [isPlain] at h
  | vList xs => exact process_value_plain dec true idx (.vList xs) col st h
  | vDict kvs => exact process_value_plain dec true idx (.vDict kvs) col st h

theorem process_value_image_fields (dec : List Nat → Option (List Nat))
    (idx : Nat) (kvs : List (String × PyVal)) (col : String) (st : ConvState)
    (hfmt : is_datadreamer_image_format (.vDict kvs) = true) :
    objField (process_value dec true idx (.vDict kvs) col st).1 "type" =
      some (.vStr "image") ∧
    objField (process_value dec true idx (.vDict kvs) col st).1 "format" =
      some (.vStr "base64_png") ∧
    objField (process_value dec true idx (.vDict kvs) col st).1 "data" =
      some (.vStr (b64encode (dictImageBytes kvs))) := by
  simp only [process_value, hfmt, if_true]
  cases hd : dec (dictImageBytes kvs) <;> exact ⟨rfl, rfl, rfl⟩

theorem process_value_pil_fields (dec : List Nat → Option (List Nat))
    (idx : Nat) (png : List Nat) (col : String) (st : ConvState) :
    objField (process_value dec true idx (.vImage png) col st).1 "type" =
      some (.vStr "image") ∧
    objField (process_value dec true idx (.vImage png) col st).1 "format" =
      some (.vStr "base64_png") ∧
    objField (process_value dec true idx (.vImage png) col st).1 "data" =
      some (.vStr (image_to_base64 png)) :=
  ⟨rfl, rfl, rfl⟩

theorem procCols_lookup (dec : List Nat → Option (List Nat)) (idx : Nat) :
    ∀ (row : List (String × PyVal)) (st : ConvState) (c : String) (v : PyVal),
      (row.map Prod.fst).Nodup → (c, v) ∈ row →
      ∃ st1, pyLookup (procCols dec idx row st).1 c =
        some (convertCell dec idx v c st1).1
  | [], _, _, _, _, hmem => absurd hmem (by simp)
  | (c0, v0) :: rest, st, c, v, hnd, hmem => by
    rcases List.mem_cons.1 hmem with heq | hmem2
    · obtain ⟨e1, e2⟩ := Prod.mk.inj heq
      subst e1
      subst e2
      exact ⟨st, by simp [procCols, pyLookup]⟩
    · have hnd1 : c0 ∉ rest.map Prod.fst ∧ (rest.map Prod.fst).Nodup := by
        rw [List.map_cons, List.nodup_cons] at hnd
        exact hnd
      have hcmem : c ∈ rest.map Prod.fst := by
        exact List.mem_map.2 ⟨(c, v), hmem2, rfl⟩
      have hc : ¬ c0 = c := fun e => hnd1.1 (e ▸ hcmem)
      obtain ⟨st1, ih⟩ := procCols_lookup dec idx rest
        (convertCell dec idx v0 c0 st).2 c v hnd1.2 hmem2
      exact ⟨st1, by simp [procCols, pyLookup, hc, ih]⟩

theorem convert_row_spec (dec : List Nat → Option (List Nat)) (idx : Nat)
    (row : List (String × PyVal)) (st : ConvState)
    (hnd : (row.map Prod.fst).Nodup)
    (hmeta : "_metadata" ∉ row.map Prod.fst) :
    convert_row dec idx row st =
      ((procCols dec idx row st).1 ++
        [("_metadata", .vDict [("row_index", .vInt idx),
          ("images_in_row", .vInt (countWithFile (procCols dec idx row st).1))])],
       (procCols dec idx row st).2) := by
  unfold convert_row
  rw [convertCols_spec dec idx row [] 0 st hnd (by simp [dictKeys])]
  have hfresh : "_metadata" ∉ dictKeys (procCols dec idx row st).1 := by
    rw [procCols_keys]
    exact hmeta
  simp [dictSet_fresh _ _ _ hfresh]

mutual

theorem process_value_written (dec : List Nat → Option (List Nat)) (idx : Nat) :
    ∀ (v : PyVal) (col : String) (st : ConvState),
      (process_value dec true idx v col st).2.written.length =
        st.written.length + countDecodableImages dec v
  | .vNone, _, _ => rfl
  | .vStr _, _, _ => rfl
  | .vInt _, _, _ => rfl
  | .vBool _, _, _ => rfl
  | .vBytes bs, col, st => by
    cases h : utf8Decode bs <;> simp [process_value, h, countDecodableImages]
  | .vImage png, col, st => by
    simp [process_value, save_image_to_file, countDecodableImages]
  | .vList xs, col, st => by
    simp [process_value, countDecodableImages,
      process_list_written dec idx xs col 0 st]
  | .vDict kvs, col, st => by
    by_cases hfmt : is_datadreamer_image_format (.vDict kvs)
    · cases hpng : dec (dictImageBytes kvs) with
      | none =>
        simp [process_value, hfmt, hpng, countDecodableImages]
      | some png =>
        simp [process_value, hfmt, hpng, save_image_to_file,
          countDecodableImages]
    · have hf : is_datadreamer_image_format (.vDict kvs) = false := by
        simpa using hfmt
      simp [process_value, hf, countDecodableImages,
        process_dict_written dec idx kvs col st]

theorem process_list_written (dec : List Nat → Option (List Nat)) (idx : Nat) :
    ∀ (xs : List PyVal) (col : String) (i : Nat) (st : ConvState),
      (process_list_items dec true idx xs col i st).2.written.length =
        st.written.length + countDecodableImagesList dec xs
  | [], _, _, _ => rfl
  | x :: rest, col, i, st => by
    simp [process_list_items, countDecodableImagesList,
      process_value_written dec idx x (col ++ "_item" ++ toString i) st,
      process_list_written dec idx rest col (i + 1)
        (process_value dec true idx x (col ++ "_item" ++ toString i) st).2]
    omega

theorem process_dict_written (dec : List Nat → Option (List Nat)) (idx : Nat) :
    ∀ (kvs : List (String × PyVal)) (col : String) (st : ConvState),
      (process_dict_items dec true idx kvs col st).2.written.length =
        st.written.length + countDecodableImagesDict dec kvs
  | [], _, _ => rfl
  | (k, x) :: rest, col, st => by
    simp [process_dict_items, countDecodableImagesDict,
      process_value_written dec idx x (col ++ "_" ++ k) st,
      process_dict_written dec idx rest col
        (process_value dec true idx x (col ++ "_" ++ k) st).2]
    omega

end

theorem convertCell_written (dec : List Nat → Option (List Nat)) (idx : Nat)
    (v : PyVal) (col : String) (st : ConvState) :
    (convertCell dec idx v col st).2.written.length =
      st.written.length + countDecodableImages dec v := by
  cases v
  case vNone => rfl
  all_goals exact process_value_written dec idx _ col st

theorem convertCols_written (dec : List Nat → Option (List Nat)) (idx : Nat) :
    ∀ (cols rowDict : List (String × PyVal)) (cnt : Nat) (st : ConvState),
      (convertCols dec idx cols rowDict cnt st).2.2.written.length =
        st.written.length + countDecodableImagesDict dec cols
  | [], _, _, _ => rfl
  | (c, v) :: rest, rowDict, cnt, st => by
    simp [convertCols, countDecodableImagesDict,
      convertCell_written dec idx v c st,
      convertCols_written dec idx rest
        (dictSet rowDict c (convertCell dec idx v c st).1)
        (cnt + (if isImageWithFilePath (convertCell dec idx v c st).1 then 1 else 0))
        (convertCell dec idx v c st).2]
    omega

theorem convert_row_written (dec : List Nat → Option (List Nat)) (idx : Nat)
    (row : List (String × PyVal)) (st : ConvState) :
    (convert_row dec idx row st).2.written.length =
      st.written.length + countDecodableImagesRow dec row := by
  unfold convert_row
  exact convertCols_written dec idx row [] 0 st

theorem convertRowsLoop_written (dec : List Nat → Option (List Nat)) :
    ∀ (idx : Nat) (rows : List (List (String × PyVal))) (st : ConvState),
      (convertRowsLoop dec idx rows st).2.written.length =
        st.written.length + countDecodableImagesDataset dec rows
  | _, [], _ => rfl
  | idx, row :: rest, st => by
    simp [convertRowsLoop, countDecodableImagesDataset,
      convert_row_written dec idx row st,
      convertRowsLoop_written dec (idx + 1) rest
        (convert_row dec idx row st).2]
    omega

mutual

theorem countDecodableImages_le (dec : List Nat → Option (List Nat)) :
    ∀ v : PyVal, countDecodableImages dec v ≤ countImages v
  | .vNone => Nat.le_refl 0
  | .vStr _ => Nat.le_refl 0
  | .vInt _ => Nat.le_refl 0
  | .vBool _ => Nat.le_refl 0
  | .vBytes _ => Nat.le_refl 0
  | .vImage _ => Nat.le_refl 1
  | .vList xs => countDecodableImagesList_le dec xs
  | .vDict kvs => by
    by_cases hfmt : is_datadreamer_image_format (.vDict kvs)
    · simp only [countDecodableImages, countImages, hfmt, if_true]
      split
      · exact Nat.le_refl 1
      · exact Nat.zero_le 1
    · have hf : is_datadreamer_image_format (.vDict kvs) = false := by
        simpa using hfmt
      simp only [countDecodableImages, countImages, hf, Bool.false_eq_true,
        if_false]
      exact countDecodableImagesDict_le dec kvs

theorem countDecodableImagesList_le (dec : List Nat → Option (List Nat)) :
    ∀ xs : List PyVal, countDecodableImagesList dec xs ≤ countImagesList xs
  | [] => Nat.le_refl 0
  | x :: rest => by
    simp only [countDecodableImagesList, countImagesList]
    exact Nat.add_le_add (countDecodableImages_le dec x)
      (countDecodableImagesList_le dec rest)

theorem countDecodableImagesDict_le (dec : List Nat → Option (List Nat)) :
    ∀ kvs : List (String × PyVal),
      countDecodableImagesDict dec kvs ≤ countImagesDict kvs
  | [] => Nat.le_refl 0
  | (k, x) :: rest => by
    simp only [countDecodableImagesDict, countImagesDict]
    exact Nat.add_le_add (countDecodableImages_le dec x)
      (countDecodableImagesDict_le dec rest)

end

/-- C3 (amended): the converter emits exactly one JSON object per source row;
a non-image column value containing no raw-bytes payloads is preserved
unchanged in that object (bytes values are instead decoded to UTF-8 or base64
text); every image value — DataDreamer record or PIL image — is represented as
an object with `type = "image"`, `format = "base64_png"` and a `data` field
that decodes back to the original image bytes. -/
theorem converter_row_objects (dec : List Nat → Option (List Nat))
    (rows : List (List (String × PyVal))) (idx : Nat)
    (row : List (String × PyVal)) (st : ConvState)
    (hnd : (row.map Prod.fst).Nodup)
    (hmeta : "_metadata" ∉ row.map Prod.fst) :
    (convert_dataset_to_jsonl dec rows).1.length = rows.length ∧
    (∀ c v, (c, v) ∈ row → isPlain v = true →
      pyLookup (convert_row dec idx row st).1 c = some v) ∧
    (∀ c kvs bs, (c, PyVal.vDict kvs) ∈ row →
      pyLookup kvs "bytes" = some (.vBytes bs) → 100 < bs.length →
      (∀ x ∈ bs, x < 256) →
      ∃ p, pyLookup (convert_row dec idx row st).1 c = some p ∧
        objField p "type" = some (.vStr "image") ∧
        objField p "format" = some (.vStr "base64_png") ∧
        objField p "data" = some (.vStr (b64encode bs)) ∧
        b64decode (b64encode bs) = bs) ∧
    (∀ c png, (c, PyVal.vImage png) ∈ row → (∀ x ∈ png, x < 256) →
      ∃ p, pyLookup (convert_row dec idx row st).1 c = some p ∧
        objField p "data" = some (.vStr (image_to_base64 png)) ∧
        b64decode (image_to_base64 png) = png) := by
  have hrow := convert_row_spec dec idx row st hnd hmeta
  have hlook : ∀ c v, (c, v) ∈ row → ∃ st1,
      pyLookup (convert_row dec idx row st).1 c =
        some (convertCell dec idx v c st1).1 := by
    intro c v hmem
    obtain ⟨st1, hl⟩ := procCols_lookup dec idx row st c v hnd hmem
    refine ⟨st1, ?_⟩
    rw [hrow, pyLookup_append, hl]
  refine ⟨?_, ?_, ?_, ?_⟩
  · unfold convert_dataset_to_jsonl
    exact convertRowsLoop_length dec 0 rows ⟨[], []⟩
  · intro c v hmem hplain
    obtain ⟨st1, hl⟩ := hlook c v hmem
    rw [hl, convertCell_plain dec idx v c st1 hplain]
  · intro c kvs bs hmem hb hlen hval
    obtain ⟨st1, hl⟩ := hlook c (.vDict kvs) hmem
    have hfmt : is_datadreamer_image_format (.vDict kvs) = true :=
      (is_datadreamer_image_format_iff kvs).2 ⟨bs, hb, hlen⟩
    have hcell : convertCell dec idx (.vDict kvs) c st1 =
        process_value dec true idx (.vDict kvs) c st1 := rfl
    have hfields := process_value_image_fields dec idx kvs c st1 hfmt
    have hbytes : dictImageBytes kvs = bs := by simp [dictImageBytes, hb]
    refine ⟨(convertCell dec idx (.vDict kvs) c st1).1, hl, ?_, ?_, ?_,
      b64decode_b64encode bs hval⟩
    · rw [hcell]; exact hfields.1
    · rw [hcell]; exact hfields.2.1
    · rw [hcell]; exact hbytes ▸ hfields.2.2
  · intro c png hmem hval
    obtain ⟨st1, hl⟩ := hlook c (.vImage png) hmem
    have hfields := process_value_pil_fields dec idx png c st1
    exact ⟨(convertCell dec idx (.vImage png) c st1).1, hl, hfields.2.2,
      b64decode_b64encode png hval⟩

theorem converter_row_objects_witness :
    pyLookup (convert_row decodeAll 0 [("a", PyVal.vInt 5)] ⟨[], []⟩).1 "a" =
      some (PyVal.vInt 5) :=
  (converter_row_objects decodeAll rowsShortBytes 0 [("a", PyVal.vInt 5)]
    ⟨[], []⟩ (by simp) (by simp)).2.1 "a" (PyVal.vInt 5) (by simp) rfl

/-- C6 (amended): for EVERY decoder behaviour of `bytes_to_image` (no
assumption on which payloads PIL can open), the number of PNG files written
equals the number of image-bearing values across all rows whose payload
decodes — a decoder-failed record contributes its base64 object but no file —
and this count never exceeds the total number of image-bearing values; every
written file is named `row_{index:06d}_{column}_{counter:03d}.png`, and for a
decodable image record the emitted object's `file_path` records the relative
path of that file. -/
theorem images_written_count (dec : List Nat → Option (List Nat))
    (rows : List (List (String × PyVal))) :
    (convert_dataset_to_jsonl dec rows).2.written.length =
      countDecodableImagesDataset dec rows ∧
    (∀ v : PyVal, countDecodableImages dec v ≤ countImages v) ∧
    (∀ wr : ImgWrite, wr.filename = "row_" ++ natPad wr.rowIdx 6 ++ "_" ++
      wr.colName ++ "_" ++ natPad wr.counter 3 ++ ".png") ∧
    (∀ (idx : Nat) (col : String) (st : ConvState)
        (kvs : List (String × PyVal)) (png : List Nat),
      is_datadreamer_image_format (.vDict kvs) = true →
      dec (dictImageBytes kvs) = some png →
      objField (process_value dec true idx (.vDict kvs) col st).1 "file_path" =
        some (.vStr ("images/" ++ ImgWrite.filename
          ⟨idx, col, counterGet st.counters (toString idx ++ "_" ++ col) + 1,
            png⟩))) := by
  refine ⟨?_, countDecodableImages_le dec, fun wr => rfl,
    fun idx col st kvs png hfmt hpng => ?_⟩
  · unfold convert_dataset_to_jsonl
    simpa using convertRowsLoop_written dec 0 rows ⟨[], []⟩
  · simp only [process_value, hfmt, hpng]
    rfl

theorem images_written_count_witness :
    (convert_dataset_to_jsonl decodeZerosOnly rowsMixed).2.written.length =
      countDecodableImagesDataset decodeZerosOnly rowsMixed ∧
    countDecodableImagesDataset decodeZerosOnly rowsMixed = 1 ∧
    countImagesDataset rowsMixed = 2 ∧
    objField (process_value decodeZerosOnly true 0
        (PyVal.vDict [("bytes", PyVal.vBytes (List.replicate 101 0)),
          ("path", PyVal.vStr "")]) "good" ⟨[], []⟩).1 "file_path" =
      some (PyVal.vStr ("images/" ++ ImgWrite.filename
        ⟨0, "good", counterGet ([] : List (String × Nat))
          (toString (0 : Nat) ++ "_" ++ "good") + 1, List.replicate 101 0⟩)) :=
  ⟨(images_written_count decodeZerosOnly rowsMixed).1, rfl, rfl,
    (images_written_count decodeZerosOnly rowsMixed).2.2.2 0 "good" ⟨[], []⟩
      [("bytes", PyVal.vBytes (List.replicate 101 0)), ("path", PyVal.vStr "")]
      (List.replicate 101 0) rfl rfl⟩

/-- C9 (amended): each emitted object carries a `_metadata` key holding the
row index and the count of COLUMNS whose top-level processed value is an image
object with a `file_path` field (nested images are not counted); when no
column is named `_metadata` and column names are distinct, the object has
exactly one more top-level key than the row has columns. -/
theorem metadata_key_and_count (dec : List Nat → Option (List Nat))
    (idx : Nat) (row : List (String × PyVal)) (st : ConvState)
    (hnd : (row.map Prod.fst).Nodup)
    (hmeta : "_metadata" ∉ row.map Prod.fst) :
    (convert_row dec idx row st).1.length = row.length + 1 ∧
    pyLookup (convert_row dec idx row st).1 "_metadata" =
      some (.vDict [("row_index", .vInt idx),
        ("images_in_row", .vInt (countWithFile (procCols dec idx row st).1))]) := by
  rw [convert_row_spec dec idx row st hnd hmeta]
  constructor
  · simp [procCols_length]
  · rw [pyLookup_append,
      pyLookup_not_mem _ _ (by rw [procCols_keys]; exact hmeta)]
    simp [pyLookup]

theorem metadata_key_and_count_witness :
    (convert_row decodeAll 0 [("note", PyVal.vBytes [104, 105])] ⟨[], []⟩).1.length = 2 ∧
    pyLookup (convert_row decodeAll 0 [("note", PyVal.vBytes [104, 105])]
        ⟨[], []⟩).1 "_metadata" =
      some (PyVal.vDict [("row_index", PyVal.vInt 0),
        ("images_in_row", PyVal.vInt (countWithFile
          (procCols decodeAll 0 [("note", PyVal.vBytes [104, 105])] ⟨[], []⟩).1))]) :=
  metadata_key_and_count decodeAll 0 [("note", PyVal.vBytes [104, 105])]
    ⟨[], []⟩ (by simp) (by simp)
